import Mathlib

/-
Verification of the chat server's connection pool, broadcast and drain logic
(src/chatServer.c, src/chatServer.h) against its natural-language specification.

The embedding is shallow: the pool is a record of the fields of conn_pool_t
that the verified operations touch, connection and message nodes are records,
and the doubly linked lists of conn_t and msg_t are represented by Lean lists
(front of the list = head pointer; the prev pointers carry no extra
information).  fd_set values are represented as lists of descriptors with
membership semantics.  Calls into the operating system (read, write, malloc,
accept, close) are modelled by explicit oracles passed as arguments; where a
function frees heap nodes, the set of freed nodes is exposed by a companion
definition so that claims about the heap can be stated.
-/

namespace ChatServer


/-- C toupper on a byte in the default locale: lowercase ASCII maps to its
uppercase equivalent, every other byte is unchanged. -/
def toupperByte (b : Nat) : Nat :=
  if 97 ≤ b ∧ b ≤ 122 then b - 32 else b

/-- capitalizeMessage (chatServer.c lines 149-153): applies toupper to each of
the first length bytes of the buffer, in place. -/
def capitalizeMessage : List Nat → Nat → List Nat
  | msg, 0 => msg
  | [], _ + 1 => []
  | b :: rest, n + 1 => toupperByte b :: capitalizeMessage rest n

/-- msg_t (chatServer.h lines 51-60): payload bytes and the size field.  The
prev and next pointers are represented by the position of the node in the
queue list of its connection. -/
structure Msg where
  payload : List Nat
  size : Nat
deriving DecidableEq

/-- conn_t (chatServer.h lines 69-82): descriptor and outbound message queue.
write_msg_head is the front of the list, write_msg_tail the back. -/
structure Conn where
  fd : Int
  queue : List Msg
deriving DecidableEq

/-- conn_pool_t (chatServer.h lines 21-39): the fields touched by the verified
operations.  nready and the two ready-set snapshots are per-iteration locals
of the select loop and are not part of the persistent pool state.  nr_conns
is a C unsigned int, so its arithmetic is modulo 2^32. -/
structure Pool where
  maxfd : Int
  read_set : List Int
  write_set : List Int
  conns : List Conn
  nr_conns : Nat
deriving DecidableEq

/-- FD_SET: membership semantics on the list representation. -/
def fdSET (sd : Int) (s : List Int) : List Int :=
  if sd ∈ s then s else sd :: s

/-- FD_CLR: membership semantics on the list representation. -/
def fdCLR (sd : Int) (s : List Int) : List Int :=
  s.filter (fun x => x != sd)

/-- createMessage (chatServer.c lines 347-372): allocates a msg_t holding a
copy of the first len bytes of the buffer and sets size to len.  The NULL
return on allocation failure is modelled at the call site in addMsg by the
allocation oracle. -/
def createMessage (buffer : List Nat) (len : Nat) : Msg :=
  { payload := buffer.take len, size := len }

/-- The loop of addMsg (chatServer.c lines 383-410): walks the connection
list from conn_head; for every connection other than the sender it calls
createMessage and, when the allocation succeeds, appends the copy at the tail
of that connection's queue and sets the descriptor in write_set; when the
allocation fails it skips that connection and continues.  alloc k tells
whether the k-th createMessage call succeeds.  Returns the updated connection
list and write_set. -/
def addMsgLoop (sd : Int) (buffer : List Nat) (len : Nat) (alloc : Nat → Bool) :
    List Conn → Nat → List Int → List Conn × List Int
  | [], _, ws => ([], ws)
  | c :: rest, k, ws =>
    if c.fd ≠ sd then
      if alloc k then
        let r := addMsgLoop sd buffer len alloc rest (k + 1) (fdSET c.fd ws)
        ({ c with queue := c.queue ++ [createMessage buffer len] } :: r.1, r.2)
      else
        let r := addMsgLoop sd buffer len alloc rest (k + 1) ws
        (c :: r.1, r.2)
    else
      let r := addMsgLoop sd buffer len alloc rest k ws
      (c :: r.1, r.2)

/-- addMsg (chatServer.c lines 374-413): broadcasts the first len bytes of
buffer to every connection except the sender sd and returns 0 (the NULL-pool
early return is a C pointer concern outside this model). -/
def addMsg (sd : Int) (buffer : List Nat) (len : Nat) (alloc : Nat → Bool)
    (pool : Pool) : Pool × Int :=
  let r := addMsgLoop sd buffer len alloc pool.conns 0 pool.write_set
  ({ pool with conns := r.1, write_set := r.2 }, 0)

/-- The lookup loop of writeToClient (chatServer.c lines 425-427): first
connection in the list with the given descriptor. -/
def findConn (sd : Int) : List Conn → Option Conn
  | [] => none
  | c :: rest => if c.fd = sd then some c else findConn sd rest

/-- The write loop of writeToClient (chatServer.c lines 440-457): writes the
queued messages in order; wr k tells whether the k-th write call returns a
positive count.  Returns the number of messages that were written and freed
before the loop stopped, and whether is_error was set. -/
def drainLoop (wr : Nat → Bool) : List Msg → Nat → Nat × Bool
  | [], _ => (0, false)
  | _ :: rest, k =>
    if wr k then
      let r := drainLoop wr rest (k + 1)
      (r.1 + 1, r.2)
    else
      (0, true)

/-- Replaces the queue of the first connection with the given descriptor. -/
def setQueueOfFirst (sd : Int) (q : List Msg) : List Conn → List Conn
  | [] => []
  | c :: rest =>
    if c.fd = sd then { c with queue := q } :: rest
    else c :: setQueueOfFirst sd q rest

/-- writeToClient (chatServer.c lines 416-470): looks the connection up,
runs the write loop, resets write_msg_head and write_msg_tail to NULL only
when no write error occurred (so after an error the connection still points
at the full original list, whose written front nodes have been freed), runs
FD_CLR on write_set unconditionally, and returns 0 — also after a write
error; -1 is returned only when the connection is not found. -/
def writeToClient (sd : Int) (wr : Nat → Bool) (pool : Pool) : Pool × Int :=
  match findConn sd pool.conns with
  | none => (pool, -1)
  | some conn =>
    let r := drainLoop wr conn.queue 0
    let newQueue := if r.2 then conn.queue else []
    ({ pool with
        conns := setQueueOfFirst sd newQueue pool.conns,
        write_set := fdCLR sd pool.write_set }, 0)

/-- The msg_t nodes freed by the write loop of writeToClient: the front
segment of the queue that was successfully written (all of it when every
write succeeded). -/
def writeToClientFreed (sd : Int) (wr : Nat → Bool) (pool : Pool) : List Msg :=
  match findConn sd pool.conns with
  | none => []
  | some conn => conn.queue.take (drainLoop wr conn.queue 0).1

/-- addConn (chatServer.c lines 254-292): when malloc succeeds, pushes a new
connection with an empty queue at the head of the list, sets the descriptor
in read_set and increments nr_conns; when malloc fails it closes sd itself
(line 267) and returns -1 with the pool untouched.  The Bool in the result
records whether addConn closed sd.  maxfd is not touched here; the caller
runs updateMaxFd. -/
def addConn (sd : Int) (allocOk : Bool) (pool : Pool) : Pool × Int × Bool :=
  if allocOk then
    ({ pool with
        conns := { fd := sd, queue := [] } :: pool.conns,
        read_set := fdSET sd pool.read_set,
        nr_conns := (pool.nr_conns + 1) % 4294967296 }, 0, false)
  else
    (pool, -1, true)

/-- The search-and-unlink of removeConn (chatServer.c lines 304-330): removes
the first connection with the given descriptor, or reports that none was
found. -/
def removeFirst (sd : Int) : List Conn → Option (List Conn)
  | [] => none
  | c :: rest =>
    if c.fd = sd then some rest
    else (removeFirst sd rest).map (fun l => c :: l)

/-- removeConn (chatServer.c lines 295-344): when the descriptor is found,
frees all queued messages, unlinks the node, clears the descriptor from both
interest sets, closes it and decrements nr_conns (unsigned, modulo 2^32);
when it is not found, returns -1 with the pool untouched.  maxfd is not
touched here. -/
def removeConn (sd : Int) (pool : Pool) : Pool × Int :=
  match removeFirst sd pool.conns with
  | none => (pool, -1)
  | some rest =>
    ({ pool with
        conns := rest,
        read_set := fdCLR sd pool.read_set,
        write_set := fdCLR sd pool.write_set,
        nr_conns := (pool.nr_conns + 4294967295) % 4294967296 }, 0)

/-- updateMaxFd (chatServer.c lines 155-166): maxfd becomes the fold of the
connection descriptors over the welcome socket, keeping the larger value. -/
def updateMaxFd (pool : Pool) (welcome_socket : Int) : Pool :=
  { pool with
      maxfd := pool.conns.foldl (fun m c => if c.fd > m then c.fd else m) welcome_socket }

/-- Outcome of the read call in processDataFromConnection: data bytes for
bytes_read > 0 (the read chunk, at most BUFFER_SIZE - 1 bytes), closed for
bytes_read == 0, readError for bytes_read < 0. -/
inductive ReadResult where
  | data (bytes : List Nat)
  | closed
  | readError
deriving DecidableEq

/-- processDataFromConnection (chatServer.c lines 105-126): on data, applies
capitalizeMessage to the chunk and broadcasts it with addMsg; on a peer
close, removes the connection and recomputes maxfd; on a negative read,
only logs and leaves the pool untouched. -/
def processDataFromConnection (sd : Int) (r : ReadResult) (alloc : Nat → Bool)
    (welcome_socket : Int) (pool : Pool) : Pool :=
  match r with
  | .data bytes =>
      (addMsg sd (capitalizeMessage bytes bytes.length) bytes.length alloc pool).1
  | .closed => updateMaxFd (removeConn sd pool).1 welcome_socket
  | .readError => pool

/-- acceptNewConnection (chatServer.c lines 128-147) after a successful
accept returning new_socket: adds the connection to the pool; when addConn
fails, closes new_socket again and returns -1; on success recomputes maxfd
and returns 0. -/
def acceptNewConnection (welcome_socket : Int) (new_socket : Int) (allocOk : Bool)
    (pool : Pool) : Pool × Int :=
  let r := addConn new_socket allocOk pool
  if r.2.1 < 0 then (r.1, -1)
  else (updateMaxFd r.1 welcome_socket, 0)

/-- The write branch of the dispatch loop in main (chatServer.c lines
78-83): calls writeToClient and discards its return value; no further action
is taken on the pool, in particular nothing removes the connection. -/
def dispatchWrite (sd : Int) (wr : Nat → Bool) (pool : Pool) : Pool :=
  (writeToClient sd wr pool).1

/-- The shutdown cleanup loop in main (chatServer.c lines 88-99): walks the
snapshot of the connection list and removes every connection; updateMaxFd is
never called here. -/
def shutdownCleanup (pool : Pool) : Pool :=
  pool.conns.foldl (fun p c => (removeConn c.fd p).1) pool

/-- Pool invariant from the spec: a live connection's descriptor is in
write-interest iff its outbound queue is non-empty. -/
def writeSetInvariant (pool : Pool) : Prop :=
  ∀ c ∈ pool.conns, c.fd ∈ pool.write_set ↔ c.queue ≠ []

/-- Spec invariant: maxfd is the maximum of the welcome socket and the
descriptors of all live connections. -/
def maxFdCorrect (pool : Pool) (welcome_socket : Int) : Prop :=
  welcome_socket ≤ pool.maxfd
    ∧ (∀ c ∈ pool.conns, c.fd ≤ pool.maxfd)
    ∧ (pool.maxfd = welcome_socket ∨ ∃ c ∈ pool.conns, pool.maxfd = c.fd)

/- Helper lemmas about capitalizeMessage. -/

lemma capitalizeMessage_length : ∀ (msg : List Nat) (len : Nat),
    (capitalizeMessage msg len).length = msg.length := by
  intro msg
  induction msg with
  | nil => intro len; cases len <;> rfl
  | cons b rest ih =>
      intro len
      cases len with
      | zero => rfl
      | succ n => simp [capitalizeMessage, ih]

lemma toupperByte_not_lower (b : Nat) (h : ¬(97 ≤ b ∧ b ≤ 122)) :
    toupperByte b = b := by
  simp [toupperByte, h]

lemma toupperByte_idem (b : Nat) : toupperByte (toupperByte b) = toupperByte b := by
  unfold toupperByte
  split_ifs with h1 h2 <;> omega

lemma capitalizeMessage_get? : ∀ (msg : List Nat) (len i : Nat),
    (capitalizeMessage msg len)[i]? =
      if i < len then (msg[i]?).map toupperByte else msg[i]? := by
  intro msg
  induction msg with
  | nil =>
      intro len i
      cases len <;> simp [capitalizeMessage]
  | cons b rest ih =>
      intro len i
      cases len with
      | zero => simp [capitalizeMessage]
      | succ n =>
          cases i with
          | zero => simp [capitalizeMessage]
          | succ j => simp [capitalizeMessage, ih, Nat.succ_lt_succ_iff]

lemma capitalizeMessage_idem : ∀ (msg : List Nat) (len : Nat),
    capitalizeMessage (capitalizeMessage msg len) len = capitalizeMessage msg len := by
  intro msg
  induction msg with
  | nil => intro len; cases len <;> rfl
  | cons b rest ih =>
      intro len
      cases len with
      | zero => rfl
      | succ n => simp [capitalizeMessage, toupperByte_idem, ih]

/-- C10: the transform (capitalizeMessage) maps each of the first length
bytes independently to its uppercase equivalent, leaves the bytes past
length and every non-alphabetic byte unchanged, preserves the buffer
length, and is idempotent. -/
theorem capitalizeMessage_spec (msg : List Nat) (len : Nat) :
    (capitalizeMessage msg len).length = msg.length
    ∧ (∀ i, i < len → (capitalizeMessage msg len)[i]? = (msg[i]?).map toupperByte)
    ∧ (∀ i, len ≤ i → (capitalizeMessage msg len)[i]? = msg[i]?)
    ∧ (∀ b : Nat, ¬(97 ≤ b ∧ b ≤ 122) → toupperByte b = b)
    ∧ capitalizeMessage (capitalizeMessage msg len) len = capitalizeMessage msg len := by
  refine ⟨capitalizeMessage_length msg len, ?_, ?_, ?_, capitalizeMessage_idem msg len⟩
  · intro i hi
    rw [capitalizeMessage_get?]
    simp [hi]
  · intro i hi
    rw [capitalizeMessage_get?]
    simp [Nat.not_lt_of_le hi]
  · intro b hb
    exact toupperByte_not_lower b hb

/-- Witness for C10 at concrete inputs: byte 104 is uppercased within the
length bound, byte 33 at an index past the bound is untouched, and the
non-alphabetic byte 33 is a fixed point of the transform. -/
theorem capitalizeMessage_spec_witness :
    (capitalizeMessage [104, 65, 33] 3)[0]? = (([104, 65, 33] : List Nat)[0]?).map toupperByte
    ∧ (capitalizeMessage [104, 65, 33] 2)[2]? = ([104, 65, 33] : List Nat)[2]?
    ∧ toupperByte 33 = 33 :=
  ⟨(capitalizeMessage_spec [104, 65, 33] 3).2.1 0 (by decide),
   (capitalizeMessage_spec [104, 65, 33] 2).2.2.1 2 (by decide),
   (capitalizeMessage_spec [104, 65, 33] 2).2.2.2.1 33 (by decide)⟩

/- C7: idempotent removal. -/

lemma removeFirst_eq_none (sd : Int) : ∀ (l : List Conn),
    (∀ c ∈ l, c.fd ≠ sd) → removeFirst sd l = none := by
  intro l
  induction l with
  | nil => intro _; rfl
  | cons c rest ih =>
      intro h
      have hc : c.fd ≠ sd := h c (by simp)
      simp only [removeFirst, if_neg hc]
      rw [ih (fun c2 hc2 => h c2 (by simp [hc2]))]
      rfl

/-- C7: removing a descriptor that belongs to no live connection reports the
not-found error (-1) and leaves the pool completely unchanged — connection
list, both interest sets and connection count included. -/
theorem removeConn_not_found (pool : Pool) (sd : Int)
    (h : ∀ c ∈ pool.conns, c.fd ≠ sd) :
    removeConn sd pool = (pool, -1) := by
  unfold removeConn
  rw [removeFirst_eq_none sd pool.conns h]

/-- Concrete pool used by the C7 witness: one live connection on descriptor
5 holding one queued message. -/
def poolW7 : Pool :=
  { maxfd := 5, read_set := [3, 5], write_set := [5],
    conns := [{ fd := 5, queue := [{ payload := [104, 105], size := 2 }] }],
    nr_conns := 1 }

/-- Witness for C7: removing the absent descriptor 9 from a concrete pool
returns -1 and the identical pool. -/
theorem removeConn_not_found_witness : removeConn 9 poolW7 = (poolW7, -1) :=
  removeConn_not_found poolW7 9 (by decide)

/- C1 and C8: broadcast fan-out. -/

/-- Effect of a successful broadcast on one connection: every connection
other than the sender gets one copy of the message appended at the tail of
its queue; the sender is untouched. -/
def appendTo (sd : Int) (buffer : List Nat) (len : Nat) (c : Conn) : Conn :=
  if c.fd = sd then c
  else { c with queue := c.queue ++ [createMessage buffer len] }

/-- Descriptors of the non-sender connections of a list segment, added to a
write set in traversal order. -/
def wsAddAll (sd : Int) (l : List Conn) (ws : List Int) : List Int :=
  l.foldl (fun w c => if c.fd ≠ sd then fdSET c.fd w else w) ws

/-- Number of createMessage calls the addMsg loop makes while walking a list
segment: one per non-sender connection. -/
def nonSenderCount (sd : Int) : List Conn → Nat
  | [] => 0
  | c :: rest => (if c.fd ≠ sd then 1 else 0) + nonSenderCount sd rest

lemma wsAddAll_cons (sd : Int) (c : Conn) (rest : List Conn) (ws : List Int) :
    wsAddAll sd (c :: rest) ws
      = wsAddAll sd rest (if c.fd ≠ sd then fdSET c.fd ws else ws) := rfl

lemma addMsgLoop_all_success (sd : Int) (buffer : List Nat) (len : Nat)
    (alloc : Nat → Bool) :
    ∀ (l : List Conn) (k : Nat) (ws : List Int),
      (∀ j, k ≤ j → alloc j = true) →
      addMsgLoop sd buffer len alloc l k ws
        = (l.map (appendTo sd buffer len), wsAddAll sd l ws) := by
  intro l
  induction l with
  | nil => intro k ws _; rfl
  | cons c rest ih =>
      intro k ws h
      by_cases hc : c.fd = sd
      · simp [addMsgLoop, appendTo, wsAddAll_cons, hc,
          ih k ws h]
      · have hk : alloc k = true := h k (Nat.le_refl k)
        simp [addMsgLoop, appendTo, wsAddAll_cons, hc, hk,
          ih (k + 1) (fdSET c.fd ws) (fun j hj => h j (Nat.le_of_succ_le hj))]

lemma createMessage_capitalized (bytes : List Nat) :
    createMessage (capitalizeMessage bytes bytes.length) bytes.length
      = { payload := capitalizeMessage bytes bytes.length, size := bytes.length } := by
  unfold createMessage
  congr 1
  exact List.take_of_length_le (by rw [capitalizeMessage_length])

/-- C1: after a successful read of a chunk from descriptor sd, the dispatcher
capitalizes the chunk and broadcasts it: every connection other than the
sender gets exactly one new message, equal to the transformed chunk, appended
at the tail of its outbound queue, and the sender's own queue (indeed its
whole connection record) is unchanged.  The allocation oracle is the
always-successful one, matching the claim's successful broadcast. -/
theorem broadcast_fanout (pool : Pool) (sd : Int) (bytes : List Nat)
    (welcome_socket : Int) :
    (processDataFromConnection sd (ReadResult.data bytes) (fun _ => true)
        welcome_socket pool).conns
      = pool.conns.map (fun c =>
          if c.fd = sd then c
          else { c with queue := c.queue ++
              [{ payload := capitalizeMessage bytes bytes.length,
                 size := bytes.length }] }) := by
  show (addMsg sd (capitalizeMessage bytes bytes.length) bytes.length
      (fun _ => true) pool).1.conns = _
  simp only [addMsg]
  rw [addMsgLoop_all_success sd (capitalizeMessage bytes bytes.length) bytes.length
      (fun _ => true) pool.conns 0 pool.write_set (fun _ _ => rfl)]
  have hfun : appendTo sd (capitalizeMessage bytes bytes.length) bytes.length
      = fun c => if c.fd = sd then c
          else { c with queue := c.queue ++
              [{ payload := capitalizeMessage bytes bytes.length,
                 size := bytes.length }] } := by
    funext c
    simp [appendTo, createMessage_capitalized]
  rw [hfun]

/-- Concrete pool used by the C1 witness: sender on descriptor 4, one other
connection on descriptor 5. -/
def poolW1 : Pool :=
  { maxfd := 5, read_set := [3, 4, 5], write_set := [],
    conns := [{ fd := 4, queue := [] }, { fd := 5, queue := [] }],
    nr_conns := 2 }

/-- Witness for C1: broadcasting the two-byte chunk 'hi' from descriptor 4
appends exactly one capitalized copy to the queue of descriptor 5 and leaves
the sender's queue empty. -/
theorem broadcast_fanout_witness :
    (processDataFromConnection 4 (ReadResult.data [104, 105]) (fun _ => true)
        3 poolW1).conns
      = poolW1.conns.map (fun c =>
          if c.fd = 4 then c
          else { c with queue := c.queue ++
              [{ payload := capitalizeMessage [104, 105] (List.length [104, 105]),
                 size := List.length [104, 105] }] }) :=
  broadcast_fanout poolW1 4 [104, 105] 3

lemma mem_fdSET (x y : Int) (s : List Int) : x ∈ fdSET y s ↔ x = y ∨ x ∈ s := by
  unfold fdSET
  split_ifs with h
  · constructor
    · exact fun hx => Or.inr hx
    · rintro (rfl | hx)
      · exact h
      · exact hx
  · simp [List.mem_cons]

lemma mem_wsAddAll (sd x : Int) : ∀ (l : List Conn) (ws : List Int),
    x ∈ wsAddAll sd l ws ↔ x ∈ ws ∨ ∃ c ∈ l, c.fd ≠ sd ∧ c.fd = x := by
  intro l
  induction l with
  | nil => intro ws; simp [wsAddAll]
  | cons c rest ih =>
      intro ws
      rw [wsAddAll_cons]
      by_cases hc : c.fd = sd
      · rw [if_neg (by simp [hc])]
        rw [ih ws]
        simp [hc]
      · rw [if_pos hc]
        rw [ih (fdSET c.fd ws)]
        simp only [mem_fdSET, List.exists_mem_cons_iff, hc]
        constructor
        · rintro ((rfl | hw) | hex)
          · exact Or.inr (Or.inl ⟨hc, rfl⟩)
          · exact Or.inl hw
          · exact Or.inr (Or.inr hex)
        · rintro (hw | ⟨_, he⟩ | hex)
          · exact Or.inl (Or.inr hw)
          · exact Or.inl (Or.inl he.symm)
          · exact Or.inr hex

lemma addMsgLoop_one_failure (sd : Int) (buffer : List Nat) (len : Nat)
    (alloc : Nat → Bool) (c : Conn) (post : List Conn) (hc : c.fd ≠ sd) :
    ∀ (pre : List Conn) (k : Nat) (ws : List Int),
      alloc (k + nonSenderCount sd pre) = false →
      (∀ j, j ≠ k + nonSenderCount sd pre → alloc j = true) →
      addMsgLoop sd buffer len alloc (pre ++ c :: post) k ws
        = (pre.map (appendTo sd buffer len) ++ c :: post.map (appendTo sd buffer len),
           wsAddAll sd post (wsAddAll sd pre ws)) := by
  intro pre
  induction pre with
  | nil =>
      intro k ws hfail hok
      have hfail2 : alloc k = false := by simpa [nonSenderCount] using hfail
      have hrec := addMsgLoop_all_success sd buffer len alloc post (k + 1) ws
        (fun j hj => hok j (by simp only [nonSenderCount]; omega))
      simp [addMsgLoop, hc, hfail2, hrec, wsAddAll]
  | cons a pre ih =>
      intro k ws hfail hok
      by_cases ha : a.fd = sd
      · have hfail2 : alloc (k + nonSenderCount sd pre) = false := by
          simpa [nonSenderCount, ha] using hfail
        have hok2 : ∀ j, j ≠ k + nonSenderCount sd pre → alloc j = true := by
          intro j hj
          exact hok j (by simpa [nonSenderCount, ha] using hj)
        simp [addMsgLoop, appendTo, wsAddAll_cons, ha,
          ih k ws hfail2 hok2]
      · have hshift : (k + 1) + nonSenderCount sd pre
            = k + nonSenderCount sd (a :: pre) := by
          simp only [nonSenderCount, if_pos ha]
          omega
        have hk : alloc k = true := by
          apply hok
          simp only [nonSenderCount, if_pos ha]
          omega
        have hfail2 : alloc ((k + 1) + nonSenderCount sd pre) = false := by
          rw [hshift]; exact hfail
        have hok2 : ∀ j, j ≠ (k + 1) + nonSenderCount sd pre → alloc j = true := by
          intro j hj
          exact hok j (by rw [← hshift]; exact hj)
        simp [addMsgLoop, appendTo, wsAddAll_cons, ha, hk,
          ih (k + 1) (fdSET a.fd ws) hfail2 hok2]

/-- C8: best-effort broadcast under allocation failure.  When the
createMessage call for exactly one recipient fails, addMsg still returns 0,
that recipient's connection is completely unchanged and its descriptor's
write-interest membership is unchanged, while every other non-sender
connection still gets its copy of the message appended. -/
theorem broadcast_alloc_failure_skips_recipient (pool : Pool) (sd : Int)
    (buffer : List Nat) (len : Nat) (alloc : Nat → Bool)
    (pre post : List Conn) (c : Conn)
    (hconns : pool.conns = pre ++ c :: post)
    (hc : c.fd ≠ sd)
    (hfd : ∀ c2 ∈ pre ++ post, c2.fd ≠ c.fd)
    (hfail : alloc (nonSenderCount sd pre) = false)
    (hok : ∀ j, j ≠ nonSenderCount sd pre → alloc j = true) :
    (addMsg sd buffer len alloc pool).2 = 0
    ∧ (addMsg sd buffer len alloc pool).1.conns
        = pre.map (appendTo sd buffer len) ++ c :: post.map (appendTo sd buffer len)
    ∧ ((addMsg sd buffer len alloc pool).1.write_set = wsAddAll sd post (wsAddAll sd pre pool.write_set))
    ∧ (c.fd ∈ (addMsg sd buffer len alloc pool).1.write_set ↔ c.fd ∈ pool.write_set) := by
  have hloop := addMsgLoop_one_failure sd buffer len alloc c post hc pre 0
    pool.write_set (by simpa using hfail) (fun j hj => hok j (by simpa using hj))
  refine ⟨rfl, ?_, ?_, ?_⟩
  · simp only [addMsg, hconns, hloop]
  · simp only [addMsg, hconns, hloop]
  · simp only [addMsg, hconns, hloop]
    rw [mem_wsAddAll, mem_wsAddAll]
    constructor
    · rintro ((hw | ⟨c2, hc2, _, he⟩) | ⟨c2, hc2, _, he⟩)
      · exact hw
      · exact absurd he (hfd c2 (List.mem_append.mpr (Or.inl hc2)))
      · exact absurd he (hfd c2 (List.mem_append.mpr (Or.inr hc2)))
    · exact fun hw => Or.inl (Or.inl hw)

/-- Allocation oracle for the C8 witness: the first createMessage call
fails, every later one succeeds. -/
def allocW8 : Nat → Bool := fun k => decide (k ≠ 0)

/-- Concrete pool used by the C8 witness: sender on descriptor 4 and two
recipients on descriptors 5 and 6. -/
def poolW8 : Pool :=
  { maxfd := 6, read_set := [3, 4, 5, 6], write_set := [],
    conns := [{ fd := 4, queue := [] }, { fd := 5, queue := [] },
              { fd := 6, queue := [] }],
    nr_conns := 3 }

/-- Witness for C8: with the copy for descriptor 5 failing to allocate, the
broadcast still returns 0, descriptor 5 keeps an empty queue and stays out
of write-interest, and descriptor 6 still receives the message. -/
theorem broadcast_alloc_failure_skips_recipient_witness :
    (addMsg 4 [72] 1 allocW8 poolW8).2 = 0
    ∧ (addMsg 4 [72] 1 allocW8 poolW8).1.conns
        = [({ fd := 4, queue := [] } : Conn)].map (appendTo 4 [72] 1)
            ++ { fd := 5, queue := [] } ::
              [({ fd := 6, queue := [] } : Conn)].map (appendTo 4 [72] 1)
    ∧ ((addMsg 4 [72] 1 allocW8 poolW8).1.write_set
        = wsAddAll 4 [{ fd := 6, queue := [] }] (wsAddAll 4 [{ fd := 4, queue := [] }] poolW8.write_set))
    ∧ ((5 : Int) ∈ (addMsg 4 [72] 1 allocW8 poolW8).1.write_set
        ↔ (5 : Int) ∈ poolW8.write_set) :=
  broadcast_alloc_failure_skips_recipient poolW8 4 [72] 1 allocW8
    [{ fd := 4, queue := [] }] [{ fd := 6, queue := [] }] { fd := 5, queue := [] }
    rfl (by decide) (by decide) (by decide)
    (fun j hj => by
      have h0 : nonSenderCount 4 [({ fd := 4, queue := [] } : Conn)] = 0 := by decide
      rw [h0] at hj
      simpa [allocW8] using hj)

/- C2, C3, C4: the error path of writeToClient. -/

/-- Write oracle on which every write call fails. -/
def wrFail : Nat → Bool := fun _ => false

/-- Write oracle on which only the first write call succeeds. -/
def wrFirstOnly : Nat → Bool := fun k => decide (k = 0)

/-- Concrete pool for the C2 evaluation: one live connection on descriptor 5
whose outbound queue holds one message, and 5 accordingly in write-interest. -/
def poolC2 : Pool :=
  { maxfd := 5, read_set := [3, 5], write_set := [5],
    conns := [{ fd := 5, queue := [{ payload := [104, 105], size := 2 }] }],
    nr_conns := 1 }

/-- C2 fails on the code: evaluating writeToClient on a connection whose
single queued write fails shows that the queue is left non-empty while
FD_CLR has removed the descriptor from write_set, so the write-interest
iff queue-non-empty invariant is broken by the drain operation. -/
theorem writeSet_invariant_broken_by_failed_drain :
    (writeToClient 5 wrFail poolC2).1.conns
        = [{ fd := 5, queue := [{ payload := [104, 105], size := 2 }] }]
    ∧ (5 : Int) ∉ (writeToClient 5 wrFail poolC2).1.write_set
    ∧ ¬ writeSetInvariant (writeToClient 5 wrFail poolC2).1 := by
  refine ⟨by decide, by decide, ?_⟩
  intro h
  have h5 := h { fd := 5, queue := [{ payload := [104, 105], size := 2 }] } (by decide)
  revert h5
  decide

/-- Messages used by the C3 evaluation. -/
def msgA : Msg := { payload := [65], size := 1 }

/-- Second message used by the C3 evaluation. -/
def msgB : Msg := { payload := [66], size := 1 }

/-- Concrete pool for the C3 evaluation: descriptor 5 with two queued
messages. -/
def poolC3 : Pool :=
  { maxfd := 5, read_set := [3, 5], write_set := [5],
    conns := [{ fd := 5, queue := [msgA, msgB] }],
    nr_conns := 1 }

/-- C3 fails on the code: when the first of two queued writes succeeds and
the second fails, the loop stops, but the connection still points at the
full original queue — not at the unsent remainder — and the freed first
message is still linked into it (write_msg_head was never advanced past the
freed nodes). -/
theorem failed_drain_leaves_freed_message_linked :
    (writeToClient 5 wrFirstOnly poolC3).1.conns = [{ fd := 5, queue := [msgA, msgB] }]
    ∧ (writeToClient 5 wrFirstOnly poolC3).1.conns ≠ [{ fd := 5, queue := [msgB] }]
    ∧ writeToClientFreed 5 wrFirstOnly poolC3 = [msgA]
    ∧ msgA ∈ [msgA, msgB] := by
  refine ⟨by decide, by decide, by decide, by decide⟩

/-- Concrete pool for the C4 evaluation: two live connections; descriptor 5
has one undelivered queued message. -/
def poolC4 : Pool :=
  { maxfd := 5, read_set := [3, 4, 5], write_set := [5],
    conns := [{ fd := 5, queue := [{ payload := [77], size := 1 }] },
              { fd := 4, queue := [] }],
    nr_conns := 2 }

/-- C4 fails on the code for the write half: after a failed write to
descriptor 5 the dispatcher's write branch (which ignores writeToClient's
return value, itself 0 even on a write error) leaves the connection in the
pool with its message still queued; nothing removes it. -/
theorem write_failure_leaves_connection_in_pool :
    (dispatchWrite 5 wrFail poolC4).conns
        = [{ fd := 5, queue := [{ payload := [77], size := 1 }] },
           { fd := 4, queue := [] }]
    ∧ (dispatchWrite 5 wrFail poolC4).nr_conns = 2
    ∧ (writeToClient 5 wrFail poolC4).2 = 0 := by
  refine ⟨by decide, by decide, by decide⟩

/- C5: the maxfd invariant. -/

lemma foldl_max_spec : ∀ (l : List Conn) (m : Int),
    m ≤ l.foldl (fun a c => if c.fd > a then c.fd else a) m
    ∧ (∀ c ∈ l, c.fd ≤ l.foldl (fun a c => if c.fd > a then c.fd else a) m)
    ∧ (l.foldl (fun a c => if c.fd > a then c.fd else a) m = m
        ∨ ∃ c ∈ l, l.foldl (fun a c => if c.fd > a then c.fd else a) m = c.fd) := by
  intro l
  induction l with
  | nil => intro m; exact ⟨le_refl m, by simp, Or.inl rfl⟩
  | cons a rest ih =>
      intro m
      have step : List.foldl (fun a c => if c.fd > a then c.fd else a) m (a :: rest)
          = List.foldl (fun a c => if c.fd > a then c.fd else a)
              (if a.fd > m then a.fd else m) rest := rfl
      obtain ⟨h1, h2, h3⟩ := ih (if a.fd > m then a.fd else m)
      refine ⟨?_, ?_, ?_⟩
      · rw [step]
        refine le_trans ?_ h1
        split_ifs with h <;> omega
      · rw [step]
        intro c hcmem
        rcases List.mem_cons.mp hcmem with rfl | hcrest
        · refine le_trans ?_ h1
          split_ifs with h <;> omega
        · exact h2 c hcrest
      · rw [step]
        rcases h3 with he | ⟨c, hcmem, he⟩
        · rw [he]
          split_ifs with h
          · exact Or.inr ⟨a, by simp, rfl⟩
          · exact Or.inl rfl
        · exact Or.inr ⟨c, by simp [hcmem], he⟩

lemma updateMaxFd_correct (pool : Pool) (welcome_socket : Int) :
    maxFdCorrect (updateMaxFd pool welcome_socket) welcome_socket := by
  obtain ⟨h1, h2, h3⟩ := foldl_max_spec pool.conns welcome_socket
  exact ⟨h1, h2, h3⟩

/-- Concrete pool for the C5 counterexample: welcome socket 3, one live
connection on descriptor 4, maxfd correctly 4 before shutdown. -/
def poolC5 : Pool :=
  { maxfd := 4, read_set := [3, 4], write_set := [],
    conns := [{ fd := 4, queue := [] }],
    nr_conns := 1 }

/-- Counterexample to C5 as stated: the shutdown cleanup loop removes the
only connection but never recomputes maxfd, so afterwards maxfd is still 4
while the maximum over the welcome socket 3 and the (now empty) set of live
connections is 3. -/
theorem shutdown_leaves_stale_maxfd :
    (shutdownCleanup poolC5).conns = []
    ∧ (shutdownCleanup poolC5).maxfd = 4
    ∧ ¬ maxFdCorrect (shutdownCleanup poolC5) 3 := by
  refine ⟨by decide, by decide, ?_⟩
  intro h
  have hconns : (shutdownCleanup poolC5).conns = [] := by decide
  rcases h.2.2 with he | ⟨c, hcmem, _⟩
  · revert he; decide
  · rw [hconns] at hcmem
    exact absurd hcmem (List.not_mem_nil c)

/-- C5 amended: after every successful accept-and-add and after every
removal performed by the dispatcher on a peer close (the two paths that call
updateMaxFd), maxfd equals the maximum of the welcome socket and all live
connection descriptors; the removals of the shutdown loop do not preserve
this (they leave maxfd stale, which is harmless because the loop has already
exited). -/
theorem maxfd_correct_after_loop_ops (pool : Pool) (welcome_socket sd new_socket : Int)
    (alloc : Nat → Bool) :
    maxFdCorrect ((acceptNewConnection welcome_socket new_socket true pool).1)
        welcome_socket
    ∧ maxFdCorrect (processDataFromConnection sd ReadResult.closed alloc
        welcome_socket pool) welcome_socket := by
  constructor
  · show maxFdCorrect ((updateMaxFd (addConn new_socket true pool).1 welcome_socket)) _
    exact updateMaxFd_correct _ _
  · exact updateMaxFd_correct _ _

/-- Witness for C5 (amended): accepting descriptor 7 into a concrete pool
and removing descriptor 5 on peer close both leave maxfd equal to the
maximum of welcome socket and live descriptors. -/
theorem maxfd_correct_after_loop_ops_witness :
    maxFdCorrect ((acceptNewConnection 3 7 true poolC4).1) 3
    ∧ maxFdCorrect (processDataFromConnection 5 ReadResult.closed (fun _ => true)
        3 poolC4) 3 :=
  maxfd_correct_after_loop_ops poolC4 3 5 7 (fun _ => true)

/- C6: atomicity of addConn on allocation failure. -/

/-- Concrete pool for the C6 counterexample: empty pool behind welcome
socket 3. -/
def poolC6 : Pool :=
  { maxfd := 3, read_set := [3], write_set := [], conns := [], nr_conns := 0 }

/-- Counterexample to C6 as stated: on allocation failure addConn does
return -1 without mutating the pool, but it does not leave the raw
descriptor open for the caller — it closes descriptor 7 itself (the closed
flag of the result is true). -/
theorem addConn_closes_descriptor_on_alloc_failure :
    addConn 7 false poolC6 = (poolC6, -1, true) := by
  decide

/-- C6 amended: if allocating the connection object fails, addConn returns
-1 with every pool field unchanged, but it closes the raw descriptor itself;
the caller (acceptNewConnection) then reports failure and issues a second,
redundant close of the same descriptor. -/
theorem addConn_alloc_failure_atomic (pool : Pool) (sd welcome_socket : Int) :
    addConn sd false pool = (pool, -1, true)
    ∧ acceptNewConnection welcome_socket sd false pool = (pool, -1) := by
  constructor
  · rfl
  · simp [acceptNewConnection, addConn]

/-- Witness for C6 (amended) at a concrete pool and descriptor. -/
theorem addConn_alloc_failure_atomic_witness :
    addConn 9 false poolC2 = (poolC2, -1, true)
    ∧ acceptNewConnection 3 9 false poolC2 = (poolC2, -1) :=
  addConn_alloc_failure_atomic poolC2 9 3

/- C9: startup argument validation. -/

/-- C isspace in the default locale, on a byte. -/
def isSpaceByte (c : Nat) : Bool :=
  decide (c = 32 ∨ c = 9 ∨ c = 10 ∨ c = 11 ∨ c = 12 ∨ c = 13)

/-- Optional sign handling of strtoul: a leading minus makes the converted
value negated modulo 2^64, a leading plus is skipped. -/
def stripSign : List Nat → Bool × List Nat
  | [] => (false, [])
  | c :: rest =>
    if c = 45 then (true, rest)
    else if c = 43 then (false, rest)
    else (false, c :: rest)

/-- Decimal digit accumulation of strtoul (also the plain decimal value of
an all-digit string): consumes leading digits, stops at the first
non-digit byte. -/
def parseDigits : List Nat → Nat → Nat
  | [], acc => acc
  | c :: rest, acc =>
    if 48 ≤ c ∧ c ≤ 57 then parseDigits rest (acc * 10 + (c - 48)) else acc

/-- ULONG_MAX on the 64-bit platform the server is built for. -/
def ulongMax : Nat := 18446744073709551615

/-- strtoul(argv[1], NULL, 10) (chatServer.c line 19) on a 64-bit platform:
skips leading whitespace, handles an optional sign, accumulates decimal
digits, clamps to ULONG_MAX on overflow, and on a minus sign returns the
negation of the value modulo 2^64. -/
def strtoul10 (s : List Nat) : Nat :=
  let p := stripSign (s.dropWhile isSpaceByte)
  let v := parseDigits p.2 0
  if ulongMax < v then ulongMax
  else if p.1 then (ulongMax + 1 - v) % (ulongMax + 1)
  else v

/-- The cast (long)strtoul(...) of chatServer.c line 19: two's-complement
reinterpretation of the 64-bit unsigned value as a 64-bit signed long. -/
def ulongToLong (x : Nat) : Int :=
  if x < 9223372036854775808 then (x : Int) else (x : Int) - 18446744073709551616

/-- Startup validation of main (chatServer.c lines 9-26): args is argv
without the program name; the result is true iff control proceeds past
validation (exactly one argument whose parsed long value lies in
[1, 65535]), false iff the usage message is printed and the process exits
with EXIT_FAILURE. -/
def mainValidate (args : List (List Nat)) : Bool :=
  match args with
  | [a] => decide (1 ≤ ulongToLong (strtoul10 a) ∧ ulongToLong (strtoul10 a) ≤ 65535)
  | _ => false

/-- Spec-side reading of "it denotes a TCP port number in [1, 65535]", used
only for the refinement comparison against mainValidate: a nonempty
all-digit string whose decimal value is between 1 and 65535. -/
def denotesTcpPort (s : List Nat) : Bool :=
  decide (s ≠ [] ∧ (∀ c ∈ s, 48 ≤ c ∧ c ≤ 57)
    ∧ 1 ≤ parseDigits s 0 ∧ parseDigits s 0 ≤ 65535)

/-- Counterexample to C9 as stated: the argument 80abc (bytes 56 48 97 98
99) does not denote a TCP port number, yet main's validation accepts it,
because strtoul stops at the first non-digit and returns 80. -/
theorem trailing_garbage_argument_accepted :
    mainValidate [[56, 48, 97, 98, 99]] = true
    ∧ denotesTcpPort [56, 48, 97, 98, 99] = false := by
  refine ⟨by decide, by decide⟩

/-- C9 amended: the process proceeds past startup validation iff there is
exactly one positional argument and C's strtoul base-10 parse of it, cast to
long, lies in [1, 65535].  Every string that denotes a TCP port number in
the spec's sense is accepted, but the converse fails: strings with trailing
garbage after a numeric value in range are accepted too. -/
theorem mainValidate_characterization (args : List (List Nat)) (s : List Nat) :
    (mainValidate args = true
      ↔ ∃ a, args = [a] ∧ 1 ≤ ulongToLong (strtoul10 a)
          ∧ ulongToLong (strtoul10 a) ≤ 65535)
    ∧ (denotesTcpPort s = true → mainValidate [s] = true) := by
  constructor
  · cases args with
    | nil => simp [mainValidate]
    | cons a t =>
        cases t with
        | nil => simp [mainValidate]
        | cons b t2 => simp [mainValidate]
  · intro hd
    obtain ⟨hne, hdig, h1, h2⟩ := of_decide_eq_true hd
    obtain ⟨c, rest, rfl⟩ : ∃ c rest, s = c :: rest := by
      cases s with
      | nil => exact absurd rfl hne
      | cons c rest => exact ⟨c, rest, rfl⟩
    obtain ⟨hc1, hc2⟩ := hdig c (List.mem_cons_self c rest)
    have hspace : isSpaceByte c = false := by
      simp only [isSpaceByte, decide_eq_false_iff_not]
      omega
    have hdrop : (c :: rest).dropWhile isSpaceByte = c :: rest := by
      rw [List.dropWhile_cons, hspace]
      simp
    have h45 : ¬ (c = 45) := by omega
    have h43 : ¬ (c = 43) := by omega
    have hsign : stripSign (c :: rest) = (false, c :: rest) := by
      simp [stripSign, h45, h43]
    have hnof : ¬ (ulongMax < parseDigits (c :: rest) 0) := by
      unfold ulongMax
      omega
    have hval : strtoul10 (c :: rest) = parseDigits (c :: rest) 0 := by
      simp only [strtoul10, hdrop, hsign, if_neg hnof]
      simp
    have hcast : ulongToLong (parseDigits (c :: rest) 0)
        = (parseDigits (c :: rest) 0 : Int) := by
      unfold ulongToLong
      rw [if_pos (by omega)]
    have hmv : mainValidate [c :: rest]
        = decide (1 ≤ ulongToLong (strtoul10 (c :: rest))
            ∧ ulongToLong (strtoul10 (c :: rest)) ≤ 65535) := rfl
    rw [hmv, hval, hcast]
    simp only [decide_eq_true_eq]
    constructor
    · exact_mod_cast h1
    · exact_mod_cast h2

/-- Witness for C9 (amended): the all-digit argument 50 (bytes 53 48)
denotes a TCP port number and is accepted by main's validation. -/
theorem mainValidate_characterization_witness :
    mainValidate [[53, 48]] = true :=
  (mainValidate_characterization [[53, 48]] [53, 48]).2 (by decide)

end ChatServer
